import Mathlib

/-!
Verification of the loopback OAuth-redirect listener (`src/lib.rs`).

The development shallowly embeds the per-connection handler
(`handle_connection`), the response synthesizer, and the accept loop of
`start` over byte lists (`List Nat`, each element a byte value `< 256`).
The HTTP request parsing performed by the `httparse` crate is embedded as
`parseRequest`, a complete-request parser over the raw payload:

* the Rust code reads into a zero-initialized 4048-byte buffer and hands
  the whole buffer to `httparse`.  A NUL byte is not a valid HTTP token,
  URI, version, or header-value byte, so for a payload shorter than the
  buffer `httparse` either finds a complete request-line-plus-headers
  block (terminated by an empty line inside the payload, trailing bytes
  ignored) or fails with an error, which `request.parse(&buffer).ok()?`
  turns into an early `None` return.  `parseRequest` therefore parses the
  payload directly and returns `none` exactly when no complete well-formed
  request is present.  (The one regime outside the model's domain is a
  payload that fills the whole 4048-byte buffer without completing, where
  `httparse` reports `Partial`; no property below concerns such payloads.)
* `httparse` is given room for 16 headers and fails with `TooManyHeaders`
  beyond that; `parseHeaders` carries the same budget as fuel.
* the Rust loop `for header in &headers` walks all 16 slots; unparsed
  slots keep the empty name, which matches neither `"Full-Url"` nor
  `"Host"`, so scanning only the parsed headers is equivalent.
-/

set_option autoImplicit false
set_option maxRecDepth 16384

namespace Oauth

/-- The 4-byte cancellation sentinel `EXIT: [u8; 4] = [1, 3, 3, 7]`. -/
def EXIT : List Nat := [1, 3, 3, 7]

/-- Header-name and method bytes: RFC 7230 `tchar`, the set `httparse`
accepts for tokens (digits, letters, and a fixed list of symbols). -/
def isTokenByte (b : Nat) : Bool :=
  decide ((48 ≤ b ∧ b ≤ 57) ∨ (65 ≤ b ∧ b ≤ 90) ∨ (97 ≤ b ∧ b ≤ 122) ∨
    b ∈ [33, 35, 36, 37, 38, 39, 42, 43, 45, 46, 94, 95, 96, 124, 126])

/-- Request-target bytes: printable ASCII except space. -/
def isUriByte (b : Nat) : Bool :=
  decide (33 ≤ b ∧ b ≤ 126)

/-- Header-value bytes: horizontal tab, printable ASCII, and `obs-text`
(bytes ≥ 0x80); control bytes and DEL end or invalidate a value. -/
def isValueByte (b : Nat) : Bool :=
  decide (b = 9 ∨ (32 ≤ b ∧ b ≤ 126) ∨ (128 ≤ b ∧ b ≤ 255))

/-- Decodes a byte list of ASCII values as a string (used for the method,
path and header names, which the parser has validated to be ASCII). -/
def asciiStr (bs : List Nat) : String :=
  String.mk (bs.map Char.ofNat)

/-- Encodes an ASCII string as its byte list (test payloads are ASCII). -/
def asciiBytes (s : String) : List Nat :=
  s.data.map Char.toNat

/-- Unicode replacement character U+FFFD. -/
def replacementChar : Char := Char.ofNat 0xFFFD

/-- UTF-8 decoding with replacement of ill-formed sequences, modelling
`String::from_utf8_lossy`; it agrees with the Rust function on every
well-formed UTF-8 byte list and emits U+FFFD on ill-formed input.  The
first argument is fuel bounding the recursion depth; every run uses the
byte-list length, which always suffices since each step consumes at least
one byte (see `utf8DecodeLossy`). -/
def utf8DecodeLossyFuel : Nat → List Nat → List Char
  | 0, _ => []
  | _, [] => []
  | fuel + 1, b :: rest =>
    if b < 0x80 then Char.ofNat b :: utf8DecodeLossyFuel fuel rest
    else if 0xC2 ≤ b ∧ b ≤ 0xDF then
      match rest with
      | b2 :: rest2 =>
        if 0x80 ≤ b2 ∧ b2 < 0xC0 then
          Char.ofNat ((b - 0xC0) * 0x40 + (b2 - 0x80)) :: utf8DecodeLossyFuel fuel rest2
        else replacementChar :: utf8DecodeLossyFuel fuel rest
      | [] => [replacementChar]
    else if 0xE0 ≤ b ∧ b ≤ 0xEF then
      match rest with
      | b2 :: b3 :: rest3 =>
        if (0x80 ≤ b2 ∧ b2 < 0xC0) ∧ (0x80 ≤ b3 ∧ b3 < 0xC0) ∧
            (b = 0xE0 → 0xA0 ≤ b2) ∧ (b = 0xED → b2 < 0xA0) then
          Char.ofNat ((b - 0xE0) * 0x1000 + (b2 - 0x80) * 0x40 + (b3 - 0x80)) ::
            utf8DecodeLossyFuel fuel rest3
        else replacementChar :: utf8DecodeLossyFuel fuel rest
      | _ => [replacementChar]
    else if 0xF0 ≤ b ∧ b ≤ 0xF4 then
      match rest with
      | b2 :: b3 :: b4 :: rest4 =>
        if (0x80 ≤ b2 ∧ b2 < 0xC0) ∧ (0x80 ≤ b3 ∧ b3 < 0xC0) ∧ (0x80 ≤ b4 ∧ b4 < 0xC0) ∧
            (b = 0xF0 → 0x90 ≤ b2) ∧ (b = 0xF4 → b2 < 0x90) then
          Char.ofNat ((b - 0xF0) * 0x40000 + (b2 - 0x80) * 0x1000 +
              (b3 - 0x80) * 0x40 + (b4 - 0x80)) :: utf8DecodeLossyFuel fuel rest4
        else replacementChar :: utf8DecodeLossyFuel fuel rest
      | _ => [replacementChar]
    else replacementChar :: utf8DecodeLossyFuel fuel rest

/-- Well-fuelled entry point of the lossy UTF-8 decoder. -/
def utf8DecodeLossy (bs : List Nat) : List Char :=
  utf8DecodeLossyFuel bs.length bs

/-- String view of lossy UTF-8 decoding, modelling
`String::from_utf8_lossy(..).to_string()`. -/
def utf8Lossy (bs : List Nat) : String :=
  String.mk (utf8DecodeLossy bs)

/-- Models Rust `str::starts_with` for string patterns. -/
def strStartsWith (s pre : String) : Bool :=
  pre.data.isPrefixOf s.data

/-- One parsed header: ASCII name, raw value bytes, as in `httparse`. -/
structure Header where
  name : String
  value : List Nat
  deriving Repr, DecidableEq

/-- Parsed request view: method, path and the ordered header list. -/
structure Request where
  method : String
  path : String
  headers : List Header
  deriving Repr, DecidableEq

/-- Leading empty lines before the request line, as `httparse` skips
them; a stray byte after CR, or running out of input, is a failure. -/
def skipEmptyLines : List Nat → Option (List Nat)
  | [] => none
  | 13 :: 10 :: rest => skipEmptyLines rest
  | 13 :: _ => none
  | 10 :: rest => skipEmptyLines rest
  | bs => some bs


/-- Consumes `HTTP/1.0` or `HTTP/1.1`, the only versions `httparse`
accepts. -/
def expectVersion : List Nat → Option (List Nat)
  | 72 :: 84 :: 84 :: 80 :: 47 :: 49 :: 46 :: d :: rest =>
    if d = 48 ∨ d = 49 then some rest else none
  | _ => none

/-- Consumes a line break: CRLF, or a bare LF which `httparse` also
tolerates. -/
def expectNewline : List Nat → Option (List Nat)
  | 13 :: 10 :: rest => some rest
  | 10 :: rest => some rest
  | _ => none

/-- Parses the request line `METHOD SP request-target SP HTTP-version CRLF`. -/
def parseRequestLine (bs : List Nat) : Option (String × String × List Nat) :=
  let method := bs.takeWhile isTokenByte
  if method.isEmpty then none
  else
    match bs.drop method.length with
    | 32 :: rest1 =>
      let path := rest1.takeWhile isUriByte
      if path.isEmpty then none
      else
        match rest1.drop path.length with
        | 32 :: rest2 =>
          match expectVersion rest2 with
          | none => none
          | some rest3 =>
            match expectNewline rest3 with
            | none => none
            | some rest4 => some (asciiStr method, asciiStr path, rest4)
        | _ => none
    | _ => none

/-- Parses the header block up to and including the empty line; the fuel
argument is the 16-header budget after which `httparse` fails with
`TooManyHeaders`.  Each header is `name ":" OWS value CRLF` with a token
name and value bytes taken verbatim up to the line break. -/
def parseHeaders : Nat → List Nat → Option (List Header)
  | fuel, bs =>
    match bs with
    | 13 :: 10 :: _ => some []
    | 10 :: _ => some []
    | _ =>
      match fuel with
      | 0 => none
      | fuel' + 1 =>
        let name := bs.takeWhile isTokenByte
        if name.isEmpty then none
        else
          match bs.drop name.length with
          | 58 :: rest1 =>
            let rest2 := rest1.dropWhile (fun b => b == 32 || b == 9)
            let value := rest2.takeWhile isValueByte
            match expectNewline (rest2.drop value.length) with
            | none => none
            | some rest3 =>
              match parseHeaders fuel' rest3 with
              | none => none
              | some hs => some (⟨asciiStr name, value⟩ :: hs)
          | _ => none

/-- Embeds `httparse::Request::parse` restricted to its complete,
successful outcome: `some` exactly when the buffer holds a well-formed
request line and at most 16 well-formed headers terminated by an empty
line (bytes past the terminator are ignored, as `httparse` ignores them);
`none` on every malformed buffer. -/
def parseRequest (bs : List Nat) : Option Request :=
  match skipEmptyLines bs with
  | none => none
  | some bs1 =>
    match parseRequestLine bs1 with
    | none => none
    | some (method, path, rest) =>
      match parseHeaders 16 rest with
      | none => none
      | some hs => some ⟨method, path, hs⟩

/-- Worker of Rust `str::replace`: scans left to right; `skip` counts
pattern characters already consumed by the last match that must be passed
over without re-examination. -/
def replaceAux (pat rep : List Char) : Nat → List Char → List Char
  | 0, [] => []
  | 0, c :: rest =>
    if !pat.isEmpty && pat.isPrefixOf (c :: rest) then
      rep ++ replaceAux pat rep (pat.length - 1) rest
    else c :: replaceAux pat rep 0 rest
  | _ + 1, [] => []
  | skip + 1, _ :: rest => replaceAux pat rep skip rest

/-- Replacement of every non-overlapping occurrence of `pat` (leftmost
first), as Rust `str::replace` performs on string slices. -/
def strReplace (s pat rep : String) : String :=
  String.mk (replaceAux pat.data rep.data 0 s.data)

/-- Substring test, modelling Rust `str::contains` with a string pattern. -/
def containsSub (pat : List Char) : List Char → Bool
  | [] => pat.isEmpty
  | c :: rest => pat.isPrefixOf (c :: rest) || containsSub pat rest

/-- String view of `containsSub`. -/
def strContains (s pat : String) : Bool :=
  containsSub pat.data s.data

/-- The injected first-phase script, as built by the `format!` at the
start of the response synthesis in `handle_connection`: a fetch of
`http://{localhost|127.0.0.1}:{port}/cb` carrying the browser's current
full location in the `Full-Url` header. -/
def script (is_localhost : Bool) (port : Nat) : String :=
  "<script>fetch(\"http://" ++
    (if is_localhost then "localhost" else "127.0.0.1") ++
    ":" ++ toString port ++
    "/cb\",\x7bheaders:\x7b\"Full-Url\":window.location.href\x7d\x7d)</script>"

/-- The `match response` expression of `handle_connection`: merges the
caller-supplied template with the script, or falls back to the built-in
page. -/
def synthesizeResponse (response : Option String) (script : String) : String :=
  match response with
  | some s =>
    if strContains s "<head>" then strReplace s "<head>" ("<head>" ++ script)
    else strReplace s "<body>" ("<head>" ++ script ++ "</head><body>")
  | none =>
    "<html><head>" ++ script ++ "</head><body>Please return to the app.</body></html>"

/-- The bytes written back on the connection: status line, a
`Content-Length` equal to the UTF-8 byte length of the body (Rust
`String::len`), a blank line, and the body. -/
def httpResponse (body : String) : String :=
  "HTTP/1.1 200 OK\r\nContent-Length: " ++ toString body.utf8ByteSize ++
    "\r\n\r\n" ++ body

/-- The `for header in &headers` loop of `handle_connection`: returns the
first `Full-Url` value if one exists, and otherwise the final state of
the `is_localhost` flag, which each `Host` header rewrites to whether its
lossily decoded value starts with `"localhost"`. -/
def headerScan : List Header → Bool → Option (List Nat) × Bool
  | [], loc => (none, loc)
  | h :: t, loc =>
    if h.name = "Full-Url" then (some h.value, loc)
    else if h.name = "Host" then
      headerScan t (strStartsWith (utf8Lossy h.value) "localhost")
    else headerScan t loc

/-- Observable effects on one connection. -/
inductive ConnEvent where
  | write (s : String)
  | flush
  deriving Repr, DecidableEq

/-- Result of handling one connection: the terminal value returned to the
accept loop (`none` keeps listening, `some ""` requests shutdown, a
non-empty `some url` is the captured redirect) together with the events
performed on the connection. -/
structure ConnResult where
  result : Option String
  events : List ConnEvent
  deriving Repr, DecidableEq

/-- Embeds `handle_connection`.  The payload is the byte sequence the
single `conn.read` call deposits into the zero-initialized 4048-byte
buffer (hence the cap at 4048 and zero padding of the sentinel
comparison `buffer[..4] == EXIT`).  The steps mirror the source order:
sentinel check, parse (`None` on failure), `/exit` check, header scan
(an early return carries the lossily decoded `Full-Url` value and writes
nothing), then response synthesis, write, and flush.  The `/cb`-without-
header case only logs and falls through to the first-phase response. -/
def handle_connection (payload : List Nat) (response : Option String)
    (port : Nat) : ConnResult :=
  let buffer := payload.take 4048
  if (buffer ++ List.replicate 4 0).take 4 = EXIT then ⟨some "", []⟩
  else
    match parseRequest buffer with
    | none => ⟨none, []⟩
    | some request =>
      if request.path = "/exit" then ⟨some "", []⟩
      else
        match headerScan request.headers false with
        | (some v, _) => ⟨some (utf8Lossy v), []⟩
        | (none, is_localhost) =>
          let doc := synthesizeResponse response (script is_localhost port)
          ⟨none, [ConnEvent.write (httpResponse doc), ConnEvent.flush]⟩

/-- One observed run of the accept loop spawned by `start`. -/
structure LoopTrace where
  callbacks : List String
  processed : Nat
  terminated : Bool
  deriving Repr, DecidableEq

/-- Embeds the accept loop of `start` over a finite incoming sequence:
`none` entries are failed accepts (logged, loop continues); for each
accepted payload the handler result is inspected — `some url` breaks the
loop, invoking the caller's handler first exactly when `url` is
non-empty; `none` continues.  The trace records the handler invocations
in order, the number of incoming events consumed, and whether the loop
exited by `break` (rather than exhausting the sequence). -/
def acceptLoop (response : Option String) (port : Nat) :
    List (Option (List Nat)) → LoopTrace
  | [] => ⟨[], 0, false⟩
  | none :: rest =>
    let t := acceptLoop response port rest
    ⟨t.callbacks, t.processed + 1, t.terminated⟩
  | some payload :: rest =>
    match (handle_connection payload response port).result with
    | some url => ⟨if url = "" then [] else [url], 1, true⟩
    | none =>
      let t := acceptLoop response port rest
      ⟨t.callbacks, t.processed + 1, t.terminated⟩

/-- The payload `cancel(port)` writes to the listener: exactly the
sentinel bytes. -/
def cancelPayload : List Nat := EXIT

/-! Helper lemmas about the sentinel check on the zero-padded read
buffer. -/

theorem take4_buffer (l l' : List Nat) :
    ((l.take 4048) ++ l').take 4 = (l ++ l').take 4 := by
  rw [List.take_append_eq_append_take, List.take_append_eq_append_take,
    List.take_take]
  have h4 : min 4 4048 = 4 := by norm_num
  rw [h4]
  congr 2
  simp only [List.length_take]
  omega

theorem padded_take4_eq_exit_iff (l : List Nat) :
    (l ++ List.replicate 4 0).take 4 = EXIT ↔ l.take 4 = EXIT := by
  match l with
  | [] => simp [EXIT, List.replicate]
  | [a] => simp [EXIT, List.replicate]
  | [a, b] => simp [EXIT, List.replicate]
  | [a, b, c] => simp [EXIT, List.replicate]
  | a :: b :: c :: d :: t =>
    have h1 : ((a :: b :: c :: d :: t) ++ List.replicate 4 0).take 4 = [a, b, c, d] := rfl
    have h2 : (a :: b :: c :: d :: t).take 4 = [a, b, c, d] := rfl
    rw [h1, h2]

/-- The sentinel comparison of `handle_connection` holds exactly when the
first four payload bytes are the sentinel. -/
theorem sentinel_check_iff (payload : List Nat) :
    ((payload.take 4048) ++ List.replicate 4 0).take 4 = EXIT ↔
      payload.take 4 = EXIT := by
  rw [take4_buffer, padded_take4_eq_exit_iff]

/-- A payload that parses as an HTTP request cannot begin with the
sentinel: byte 1 is not a valid method byte, so the sentinel byte pattern
does not collide with any parseable request. -/
theorem parse_not_sentinel {payload : List Nat} {r : Request}
    (h : parseRequest (payload.take 4048) = some r) :
    ((payload.take 4048) ++ List.replicate 4 0).take 4 ≠ EXIT := by
  intro hx
  rw [padded_take4_eq_exit_iff] at hx
  have hb : payload.take 4048 =
      1 :: 3 :: 3 :: 7 :: (payload.take 4048).drop 4 := by
    conv_lhs => rw [← List.take_append_drop 4 (payload.take 4048)]
    rw [hx]
    rfl
  rw [hb] at h
  have : parseRequest (1 :: 3 :: 3 :: 7 :: (payload.take 4048).drop 4) = none := rfl
  rw [this] at h
  exact Option.noConfusion h

/-! Case lemmas for `handle_connection`, one per protocol state. -/

theorem hc_sentinel (payload : List Nat) (resp : Option String) (port : Nat)
    (h : payload.take 4 = EXIT) :
    handle_connection payload resp port = ⟨some "", []⟩ := by
  unfold handle_connection
  rw [if_pos ((sentinel_check_iff payload).mpr h)]

theorem hc_parse_fail (payload : List Nat) (resp : Option String) (port : Nat)
    (hs : payload.take 4 ≠ EXIT)
    (hp : parseRequest (payload.take 4048) = none) :
    handle_connection payload resp port = ⟨none, []⟩ := by
  unfold handle_connection
  rw [if_neg (fun hx => hs ((sentinel_check_iff payload).mp hx)), hp]

theorem hc_parsed (payload : List Nat) (resp : Option String) (port : Nat)
    (r : Request) (hp : parseRequest (payload.take 4048) = some r) :
    handle_connection payload resp port =
      (if r.path = "/exit" then ⟨some "", []⟩
       else
        match headerScan r.headers false with
        | (some v, _) => ⟨some (utf8Lossy v), []⟩
        | (none, is_localhost) =>
          ⟨none, [ConnEvent.write (httpResponse
              (synthesizeResponse resp (script is_localhost port))),
            ConnEvent.flush]⟩) := by
  unfold handle_connection
  rw [if_neg (parse_not_sentinel hp), hp]

/-! Lemmas about the accept loop. -/

theorem acceptLoop_break (resp : Option String) (port : Nat)
    (payload : List Nat) (rest : List (Option (List Nat))) (url : String)
    (h : (handle_connection payload resp port).result = some url) :
    acceptLoop resp port (some payload :: rest) =
      ⟨if url = "" then [] else [url], 1, true⟩ := by
  unfold acceptLoop
  rw [h]

theorem acceptLoop_continue (resp : Option String) (port : Nat)
    (payload : List Nat) (rest : List (Option (List Nat)))
    (h : (handle_connection payload resp port).result = none) :
    acceptLoop resp port (some payload :: rest) =
      ⟨(acceptLoop resp port rest).callbacks,
        (acceptLoop resp port rest).processed + 1,
        (acceptLoop resp port rest).terminated⟩ := by
  have h1 : acceptLoop resp port (some payload :: rest) =
      (match (handle_connection payload resp port).result with
        | some url => ⟨if url = "" then [] else [url], 1, true⟩
        | none =>
          ⟨(acceptLoop resp port rest).callbacks,
            (acceptLoop resp port rest).processed + 1,
            (acceptLoop resp port rest).terminated⟩) := rfl
  rw [h1, h]

theorem acceptLoop_nonterminal_run (resp : Option String) (port : Nat)
    (pre : List (List Nat)) (l : List (Option (List Nat)))
    (h : ∀ q ∈ pre, (handle_connection q resp port).result = none) :
    acceptLoop resp port (pre.map some ++ l) =
      ⟨(acceptLoop resp port l).callbacks,
        (acceptLoop resp port l).processed + pre.length,
        (acceptLoop resp port l).terminated⟩ := by
  induction pre with
  | nil => simp
  | cons q pre ih =>
    have hq : (handle_connection q resp port).result = none :=
      h q (List.mem_cons_self q pre)
    have ih' := ih (fun x hx => h x (List.mem_cons_of_mem q hx))
    simp only [List.map_cons, List.cons_append,
      acceptLoop_continue resp port q (pre.map some ++ l) hq, ih']
    simp [List.length_cons]
    omega

/-- Claim C2: a connection whose first four payload bytes are the
sentinel `[1,3,3,7]`, and a connection parsing as an HTTP request with
path exactly `/exit`, both make `handle_connection` return the
empty-string terminal result with no response written (the sentinel case
without any HTTP parsing: the result is fixed for every payload starting
with the sentinel, parseable or not), and the accept loop then terminates
without ever invoking the handler callback. -/
theorem shutdown_sentinel_and_exit_path (resp : Option String) (port : Nat) :
    (∀ payload : List Nat, payload.take 4 = EXIT →
      handle_connection payload resp port = ⟨some "", []⟩)
  ∧ (∀ (payload : List Nat) (r : Request),
      parseRequest (payload.take 4048) = some r → r.path = "/exit" →
      handle_connection payload resp port = ⟨some "", []⟩)
  ∧ (∀ (pre : List (List Nat)) (payload : List Nat)
      (post : List (Option (List Nat))),
      (∀ q ∈ pre, (handle_connection q resp port).result = none) →
      (handle_connection payload resp port).result = some "" →
      acceptLoop resp port (pre.map some ++ some payload :: post) =
        ⟨[], pre.length + 1, true⟩) := by
  refine ⟨fun payload h => hc_sentinel payload resp port h, ?_, ?_⟩
  · intro payload r hp hpath
    rw [hc_parsed payload resp port r hp, if_pos hpath]
  · intro pre payload post hpre hterm
    rw [acceptLoop_nonterminal_run resp port pre _ hpre,
      acceptLoop_break resp port payload post "" hterm]
    simp [Nat.add_comm]

/-- Witness for C2: the `cancel` payload and a literal `GET /exit`
request both terminate with the empty result and an empty callback
trace. -/
theorem shutdown_sentinel_and_exit_path_witness :
    handle_connection cancelPayload none 4321 = ⟨some "", []⟩
  ∧ handle_connection (asciiBytes "GET /exit HTTP/1.1\r\n\r\n") none 4321 =
      ⟨some "", []⟩
  ∧ acceptLoop none 4321 [some cancelPayload] = ⟨[], 1, true⟩ :=
  ⟨(shutdown_sentinel_and_exit_path none 4321).1 cancelPayload (by decide),
   (shutdown_sentinel_and_exit_path none 4321).2.1
     (asciiBytes "GET /exit HTTP/1.1\r\n\r\n") ⟨"GET", "/exit", []⟩
     (by decide) rfl,
   (shutdown_sentinel_and_exit_path none 4321).2.2 [] cancelPayload []
     (by simp) (by decide)⟩

/-- Claim C6: a payload that does not start with the sentinel and fails
to parse yields no terminal result and no response: the connection is
dropped, the accept loop continues (processing one more incoming event
and otherwise behaving as on the remaining sequence), so a subsequent
well-formed connection is still served. -/
theorem malformed_request_recoverable (resp : Option String) (port : Nat) :
    (∀ payload : List Nat, payload.take 4 ≠ EXIT →
      parseRequest (payload.take 4048) = none →
      handle_connection payload resp port = ⟨none, []⟩)
  ∧ (∀ (payload : List Nat) (rest : List (Option (List Nat))),
      (handle_connection payload resp port).result = none →
      acceptLoop resp port (some payload :: rest) =
        ⟨(acceptLoop resp port rest).callbacks,
          (acceptLoop resp port rest).processed + 1,
          (acceptLoop resp port rest).terminated⟩) :=
  ⟨fun payload hs hp => hc_parse_fail payload resp port hs hp,
   fun payload rest h => acceptLoop_continue resp port payload rest h⟩

/-- Witness for C6: four garbage bytes are dropped without a response,
and a well-formed second-phase connection right after them is still
captured. -/
theorem malformed_request_recoverable_witness :
    handle_connection [222, 173, 190, 239] none 4321 = ⟨none, []⟩
  ∧ acceptLoop none 4321
      [some [222, 173, 190, 239],
       some (asciiBytes "GET /cb HTTP/1.1\r\nFull-Url: http://a#b\r\n\r\n")] =
      ⟨["http://a#b"], 2, true⟩ :=
  ⟨(malformed_request_recoverable none 4321).1 [222, 173, 190, 239]
      (by decide) (by decide),
   by
    rw [(malformed_request_recoverable none 4321).2 [222, 173, 190, 239]
      [some (asciiBytes "GET /cb HTTP/1.1\r\nFull-Url: http://a#b\r\n\r\n")]
      (by decide)]
    decide⟩

/-- Claim C7: on any incoming sequence, one accept-loop run invokes the
handler callback at most once, and the loop exits immediately after the
first connection whose handler result is terminal, ignoring everything
queued behind it (and invoking no callback at all when that result is the
shutdown sentinel `some ""`). -/
theorem at_most_one_callback (resp : Option String) (port : Nat) :
    (∀ conns : List (Option (List Nat)),
      ((acceptLoop resp port conns).callbacks).length ≤ 1)
  ∧ (∀ (payload : List Nat) (rest : List (Option (List Nat))) (url : String),
      (handle_connection payload resp port).result = some url →
      acceptLoop resp port (some payload :: rest) =
        ⟨if url = "" then [] else [url], 1, true⟩) := by
  constructor
  · intro conns
    induction conns with
    | nil => simp [acceptLoop]
    | cons c rest ih =>
      cases c with
      | none =>
        have h1 : acceptLoop resp port (none :: rest) =
            ⟨(acceptLoop resp port rest).callbacks,
              (acceptLoop resp port rest).processed + 1,
              (acceptLoop resp port rest).terminated⟩ := rfl
        rw [h1]
        exact ih
      | some p =>
        have h1 : acceptLoop resp port (some p :: rest) =
            (match (handle_connection p resp port).result with
              | some url => ⟨if url = "" then [] else [url], 1, true⟩
              | none =>
                ⟨(acceptLoop resp port rest).callbacks,
                  (acceptLoop resp port rest).processed + 1,
                  (acceptLoop resp port rest).terminated⟩) := rfl
        rw [h1]
        cases hr : (handle_connection p resp port).result with
        | none => simpa using ih
        | some url =>
          simp only []
          split <;> simp
  · intro payload rest url h
    exact acceptLoop_break resp port payload rest url h

/-- Witness for C7: a capture connection followed by a queued sentinel
produces exactly one callback and stops after the first connection. -/
theorem at_most_one_callback_witness :
    ((acceptLoop none 7
        [some (asciiBytes "GET /cb HTTP/1.1\r\nFull-Url: u\r\n\r\n"),
         some cancelPayload]).callbacks).length ≤ 1
  ∧ acceptLoop none 7
      (some (asciiBytes "GET /cb HTTP/1.1\r\nFull-Url: u\r\n\r\n") ::
        [some cancelPayload]) = ⟨["u"], 1, true⟩ :=
  ⟨(at_most_one_callback none 7).1 _,
   by
    rw [(at_most_one_callback none 7).2
      (asciiBytes "GET /cb HTTP/1.1\r\nFull-Url: u\r\n\r\n")
      [some cancelPayload] "u" (by decide)]
    decide⟩

/-! Concrete payloads used by the witnesses. -/

/-- First-phase request of the round trip: plain `GET /` from the
browser redirect. -/
def firstPhasePayload : List Nat :=
  asciiBytes "GET / HTTP/1.1\r\nHost: 127.0.0.1:9999\r\n\r\n"

/-- Second-phase request of the round trip: the script-issued `GET /cb`
carrying the full URL, fragment included, in the `Full-Url` header. -/
def secondPhasePayload : List Nat :=
  asciiBytes
    "GET /cb HTTP/1.1\r\nFull-Url: http://127.0.0.1:9999/callback#token=abc\r\n\r\n"

/-- Shared case lemma: a parseable request with path other than `/exit`
whose header scan finds a `Full-Url` value returns that value, lossily
decoded, with no write on the connection. -/
theorem hc_full_url (payload : List Nat) (resp : Option String) (port : Nat)
    (r : Request) (v : List Nat)
    (hp : parseRequest (payload.take 4048) = some r)
    (hpath : r.path ≠ "/exit")
    (hscan : (headerScan r.headers false).1 = some v) :
    handle_connection payload resp port = ⟨some (utf8Lossy v), []⟩ := by
  rw [hc_parsed payload resp port r hp, if_neg hpath]
  rcases hhs : headerScan r.headers false with ⟨o, b⟩
  have ho : o = some v := by rw [hhs] at hscan; exact hscan
  subst ho
  rfl

/-- Claim C1: a second-phase request — parseable, path `/cb`, not the
sentinel — carrying a `Full-Url` header makes `handle_connection` return
the (lossily decoded, non-empty) header value, and the accept loop then
invokes the handler callback exactly once with that value verbatim and
terminates, however many non-terminal connections preceded it. -/
theorem second_phase_capture (resp : Option String) (port : Nat)
    (payload : List Nat) (r : Request) (v : List Nat)
    (_hs : payload.take 4 ≠ EXIT)
    (hp : parseRequest (payload.take 4048) = some r)
    (hpath : r.path = "/cb")
    (hscan : (headerScan r.headers false).1 = some v)
    (hv : utf8Lossy v ≠ "") :
    (handle_connection payload resp port).result = some (utf8Lossy v)
  ∧ ∀ (pre : List (List Nat)) (post : List (Option (List Nat))),
      (∀ q ∈ pre, (handle_connection q resp port).result = none) →
      acceptLoop resp port (pre.map some ++ some payload :: post) =
        ⟨[utf8Lossy v], pre.length + 1, true⟩ := by
  have hmain : handle_connection payload resp port = ⟨some (utf8Lossy v), []⟩ :=
    hc_full_url payload resp port r v hp (by rw [hpath]; decide) hscan
  refine ⟨by rw [hmain], ?_⟩
  intro pre post hpre
  rw [acceptLoop_nonterminal_run resp port pre _ hpre,
    acceptLoop_break resp port payload post (utf8Lossy v) (by rw [hmain])]
  rw [if_neg hv]
  simp [Nat.add_comm]

/-- Witness for C1: the full round trip — first-phase `GET /` then
second-phase `GET /cb` with
`Full-Url: http://127.0.0.1:9999/callback#token=abc` — yields exactly one
callback with the literal URL, fragment included. -/
theorem second_phase_capture_witness :
    (handle_connection secondPhasePayload none 9999).result =
      some "http://127.0.0.1:9999/callback#token=abc"
  ∧ acceptLoop none 9999
      ([firstPhasePayload].map some ++ some secondPhasePayload :: []) =
      ⟨["http://127.0.0.1:9999/callback#token=abc"], 2, true⟩ := by
  have h := second_phase_capture none 9999 secondPhasePayload
    ⟨"GET", "/cb",
      [⟨"Full-Url", asciiBytes "http://127.0.0.1:9999/callback#token=abc"⟩]⟩
    (asciiBytes "http://127.0.0.1:9999/callback#token=abc")
    (by decide) (by decide) rfl (by decide) (by decide)
  refine ⟨by rw [h.1]; decide, ?_⟩
  rw [h.2 [firstPhasePayload] []
    (by intro q hq; rw [List.mem_singleton] at hq; subst hq; decide)]
  decide

/-- Claim C9: a parseable request with a `Full-Url` header whose value is
empty returns `some ""`, which the accept loop reads as the shutdown
sentinel: it terminates without invoking the callback. -/
theorem empty_full_url_shutdown (resp : Option String) (port : Nat)
    (payload : List Nat) (r : Request)
    (hp : parseRequest (payload.take 4048) = some r)
    (hscan : (headerScan r.headers false).1 = some []) :
    (handle_connection payload resp port).result = some ""
  ∧ ∀ rest : List (Option (List Nat)),
      acceptLoop resp port (some payload :: rest) = ⟨[], 1, true⟩ := by
  have hmain : (handle_connection payload resp port).result = some "" := by
    by_cases hpe : r.path = "/exit"
    · rw [hc_parsed payload resp port r hp, if_pos hpe]
    · rw [hc_full_url payload resp port r [] hp hpe hscan]
      decide
  refine ⟨hmain, fun rest => ?_⟩
  rw [acceptLoop_break resp port payload rest "" hmain]
  decide

/-- Witness for C9: `GET /cb` with an empty `Full-Url:` header terminates
the loop with no callback. -/
theorem empty_full_url_shutdown_witness :
    (handle_connection (asciiBytes "GET /cb HTTP/1.1\r\nFull-Url:\r\n\r\n")
        none 8080).result = some ""
  ∧ acceptLoop none 8080
      [some (asciiBytes "GET /cb HTTP/1.1\r\nFull-Url:\r\n\r\n")] =
      ⟨[], 1, true⟩ := by
  have h := empty_full_url_shutdown none 8080
    (asciiBytes "GET /cb HTTP/1.1\r\nFull-Url:\r\n\r\n")
    ⟨"GET", "/cb", [⟨"Full-Url", []⟩]⟩ (by decide) rfl
  exact ⟨h.1, h.2 []⟩

/-- Request used to refute path independence of the capture: path
`/exit` together with a `Full-Url` header. -/
def exitWithFullUrlPayload : List Nat :=
  asciiBytes "GET /exit HTTP/1.1\r\nFull-Url: http://a#b\r\n\r\n"

/-- Claim C10 counterexample: a parseable request with a `Full-Url`
header but path `/exit` does not return the header value — the `/exit`
check precedes the header scan, so the result is the shutdown sentinel
`some ""` instead of `some "http://a#b"`. -/
theorem full_url_path_cex :
    (handle_connection exitWithFullUrlPayload none 4321).result = some ""
  ∧ some ("" : String) ≠ some ("http://a#b" : String) :=
  ⟨by decide, by decide⟩

/-- Scan lemma: the first header named `Full-Url` wins, whatever headers
surround it. -/
theorem headerScan_first (pre : List Header) (fu : Header) (post : List Header)
    (hfu : fu.name = "Full-Url") :
    ∀ b : Bool, (∀ h ∈ pre, h.name ≠ "Full-Url") →
      (headerScan (pre ++ fu :: post) b).1 = some fu.value := by
  induction pre with
  | nil =>
    intro b _
    have h1 : headerScan (fu :: post) b =
        (if fu.name = "Full-Url" then (some fu.value, b)
         else if fu.name = "Host" then
          headerScan post (strStartsWith (utf8Lossy fu.value) "localhost")
         else headerScan post b) := rfl
    rw [List.nil_append, h1, if_pos hfu]
  | cons h t ih =>
    intro b hpre
    have hh : h.name ≠ "Full-Url" := hpre h (List.mem_cons_self h t)
    have h1 : headerScan ((h :: t) ++ fu :: post) b =
        (if h.name = "Full-Url" then (some h.value, b)
         else if h.name = "Host" then
          headerScan (t ++ fu :: post) (strStartsWith (utf8Lossy h.value) "localhost")
         else headerScan (t ++ fu :: post) b) := rfl
    have hrest : ∀ x ∈ t, x.name ≠ "Full-Url" :=
      fun x hx => hpre x (List.mem_cons_of_mem h hx)
    rw [h1, if_neg hh]
    by_cases hhost : h.name = "Host"
    · rw [if_pos hhost]; exact ih _ hrest
    · rw [if_neg hhost]; exact ih b hrest

/-- Claim C10 amended: for every parseable request whose path is not
`/exit`, the first header named exactly `Full-Url` determines the
terminal result — whatever the path and whatever headers (including
`Host`) precede or follow it. -/
theorem full_url_path_independent (resp : Option String) (port : Nat)
    (payload : List Nat) (r : Request) (pre post : List Header) (fu : Header)
    (hp : parseRequest (payload.take 4048) = some r)
    (hpath : r.path ≠ "/exit")
    (hhdrs : r.headers = pre ++ fu :: post)
    (hfu : fu.name = "Full-Url")
    (hpre : ∀ h ∈ pre, h.name ≠ "Full-Url") :
    (handle_connection payload resp port).result = some (utf8Lossy fu.value) := by
  have hscan : (headerScan r.headers false).1 = some fu.value := by
    rw [hhdrs]; exact headerScan_first pre fu post hfu false hpre
  rw [hc_full_url payload resp port r fu.value hp hpath hscan]

/-- Witness for C10 amended: a `POST /weird` request with a `Host`
header before and a second `Full-Url` after still returns the first
`Full-Url` value. -/
theorem full_url_path_independent_witness :
    (handle_connection
      (asciiBytes
        "POST /weird HTTP/1.1\r\nHost: localhost\r\nFull-Url: http://z#f\r\nFull-Url: other\r\n\r\n")
      none 1234).result = some "http://z#f" := by
  have h := full_url_path_independent none 1234
    (asciiBytes
      "POST /weird HTTP/1.1\r\nHost: localhost\r\nFull-Url: http://z#f\r\nFull-Url: other\r\n\r\n")
    ⟨"POST", "/weird",
      [⟨"Host", asciiBytes "localhost"⟩, ⟨"Full-Url", asciiBytes "http://z#f"⟩,
       ⟨"Full-Url", asciiBytes "other"⟩]⟩
    [⟨"Host", asciiBytes "localhost"⟩] [⟨"Full-Url", asciiBytes "other"⟩]
    ⟨"Full-Url", asciiBytes "http://z#f"⟩
    (by decide) (by decide) rfl rfl (by decide)
  rw [h]
  decide

/-- Claim C3 counterexample: on the second-phase request the handler
returns the captured URL but writes nothing at all on the connection —
no `200 OK` is sent before closing, contrary to the claim. -/
theorem full_url_no_response_cex :
    (handle_connection secondPhasePayload none 9999).result =
      some "http://127.0.0.1:9999/callback#token=abc"
  ∧ (handle_connection secondPhasePayload none 9999).events = [] :=
  ⟨by decide, by decide⟩

/-- Claim C3 amended: the `Full-Url` capture branch returns the terminal
result immediately and performs no write and no flush on that
connection; the connection is closed without any response. -/
theorem full_url_branch_writes_nothing (resp : Option String) (port : Nat)
    (payload : List Nat) (r : Request) (v : List Nat)
    (hp : parseRequest (payload.take 4048) = some r)
    (hpath : r.path ≠ "/exit")
    (hscan : (headerScan r.headers false).1 = some v) :
    handle_connection payload resp port = ⟨some (utf8Lossy v), []⟩ :=
  hc_full_url payload resp port r v hp hpath hscan

/-- Witness for C3 amended: a `/cb` capture connection ends with the URL
as result and an empty event list. -/
theorem full_url_branch_writes_nothing_witness :
    handle_connection (asciiBytes "GET /cb HTTP/1.1\r\nFull-Url: http://x\r\n\r\n")
        none 7777 = ⟨some "http://x", []⟩ := by
  have h := full_url_branch_writes_nothing none 7777
    (asciiBytes "GET /cb HTTP/1.1\r\nFull-Url: http://x\r\n\r\n")
    ⟨"GET", "/cb", [⟨"Full-Url", asciiBytes "http://x"⟩]⟩
    (asciiBytes "http://x") (by decide) (by decide) rfl
  rw [h]
  decide

/-- Claim C8: whenever a response is sent on a connection, the events are
exactly one write of `HTTP/1.1 200 OK`, a `Content-Length` equal to the
UTF-8 byte length of the body, a blank line and the body, followed by a
flush. -/
theorem response_format (resp : Option String) (port : Nat) (payload : List Nat)
    (h : (handle_connection payload resp port).events ≠ []) :
    ∃ body : String,
      (handle_connection payload resp port).events =
        [ConnEvent.write ("HTTP/1.1 200 OK\r\nContent-Length: " ++
            toString body.utf8ByteSize ++ "\r\n\r\n" ++ body),
          ConnEvent.flush] := by
  by_cases hs : payload.take 4 = EXIT
  · rw [hc_sentinel payload resp port hs] at h
    exact absurd rfl h
  · cases hp : parseRequest (payload.take 4048) with
    | none =>
      rw [hc_parse_fail payload resp port hs hp] at h
      exact absurd rfl h
    | some r =>
      rw [hc_parsed payload resp port r hp] at h ⊢
      by_cases hpe : r.path = "/exit"
      · rw [if_pos hpe] at h
        exact absurd rfl h
      · rw [if_neg hpe] at h ⊢
        rcases hsc : headerScan r.headers false with ⟨o, b⟩
        rw [hsc] at h
        cases o with
        | some v => exact absurd rfl h
        | none => exact ⟨synthesizeResponse resp (script b port), rfl⟩

/-- Witness for C8: the first-phase connection receives a well-formed
`200 OK` response with an accurate `Content-Length`. -/
theorem response_format_witness :
    (handle_connection firstPhasePayload none 9999).events ≠ []
  ∧ ∃ body : String,
      (handle_connection firstPhasePayload none 9999).events =
        [ConnEvent.write ("HTTP/1.1 200 OK\r\nContent-Length: " ++
            toString body.utf8ByteSize ++ "\r\n\r\n" ++ body),
          ConnEvent.flush] :=
  ⟨by decide, response_format none 9999 firstPhasePayload (by decide)⟩

/-- Scan lemma: headers containing neither `Full-Url` nor `Host` leave
the scan state untouched. -/
theorem headerScan_inert (t : List Header) :
    ∀ b : Bool, (∀ h ∈ t, h.name ≠ "Full-Url") → (∀ h ∈ t, h.name ≠ "Host") →
      headerScan t b = (none, b) := by
  induction t with
  | nil => intro b _ _; rfl
  | cons h t ih =>
    intro b h1 h2
    have e : headerScan (h :: t) b =
        (if h.name = "Full-Url" then (some h.value, b)
         else if h.name = "Host" then
          headerScan t (strStartsWith (utf8Lossy h.value) "localhost")
         else headerScan t b) := rfl
    rw [e, if_neg (h1 h (List.mem_cons_self h t)),
      if_neg (h2 h (List.mem_cons_self h t))]
    exact ih b (fun x hx => h1 x (List.mem_cons_of_mem h hx))
      (fun x hx => h2 x (List.mem_cons_of_mem h hx))

/-- Scan lemma: with no `Full-Url` header and exactly one `Host` header,
the scan ends with the flag telling whether that `Host` value starts with
`"localhost"`. -/
theorem headerScan_single_host (hs : List Header) (hostH : Header) :
    ∀ b : Bool, (∀ h ∈ hs, h.name ≠ "Full-Url") →
      hs.filter (fun h => h.name == "Host") = [hostH] →
      headerScan hs b =
        (none, strStartsWith (utf8Lossy hostH.value) "localhost") := by
  induction hs with
  | nil => intro b _ hf; exact absurd hf (by simp)
  | cons h t ih =>
    intro b h1 hf
    have hnf : h.name ≠ "Full-Url" := h1 h (List.mem_cons_self h t)
    have e : headerScan (h :: t) b =
        (if h.name = "Full-Url" then (some h.value, b)
         else if h.name = "Host" then
          headerScan t (strStartsWith (utf8Lossy h.value) "localhost")
         else headerScan t b) := rfl
    by_cases hh : h.name = "Host"
    · rw [List.filter_cons_of_pos (by simp [hh])] at hf
      have hft : h = hostH ∧ t.filter (fun x => x.name == "Host") = [] := by
        constructor
        · exact (List.cons.injEq _ _ _ _ ▸ hf).1
        · exact (List.cons.injEq _ _ _ _ ▸ hf).2
      have hnh : ∀ x ∈ t, x.name ≠ "Host" := by
        intro x hx
        have := List.filter_eq_nil_iff.mp hft.2 x hx
        simpa using this
      rw [e, if_neg hnf, if_pos hh,
        headerScan_inert t _ (fun x hx => h1 x (List.mem_cons_of_mem h hx)) hnh,
        hft.1]
    · rw [List.filter_cons_of_neg (by simp [hh])] at hf
      rw [e, if_neg hnf, if_neg hh]
      exact ih b (fun x hx => h1 x (List.mem_cons_of_mem h hx)) hf

/-- First-phase request whose `Host` value merely starts with
`localhost` without being equal to it. -/
def localhostPortPayload : List Nat :=
  asciiBytes "GET / HTTP/1.1\r\nHost: localhost:4000\r\n\r\n"

/-- Claim C4 counterexample: with `Host: localhost:4000` — a value other
than `localhost` — the synthesized script still targets `localhost`, not
`127.0.0.1`, because the source tests `starts_with("localhost")`. -/
theorem host_not_equality_cex :
    (handle_connection localhostPortPayload none 7890).events =
      [ConnEvent.write (httpResponse (synthesizeResponse none (script true 7890))),
        ConnEvent.flush]
  ∧ ("localhost:4000" : String) ≠ "localhost"
  ∧ script true 7890 ≠ script false 7890 :=
  ⟨by decide, by decide, by decide⟩

/-- Claim C4 amended: for every first-phase request (parseable, path not
`/exit`, no `Full-Url` header) carrying exactly one `Host` header, the
script host of the written response is `localhost` exactly when the
`Host` value starts with `"localhost"`, and `127.0.0.1` otherwise. -/
theorem host_header_selects_script_host (resp : Option String) (port : Nat)
    (payload : List Nat) (r : Request) (hostH : Header)
    (hp : parseRequest (payload.take 4048) = some r)
    (hpath : r.path ≠ "/exit")
    (hnofu : ∀ h ∈ r.headers, h.name ≠ "Full-Url")
    (hhost : r.headers.filter (fun h => h.name == "Host") = [hostH]) :
    (handle_connection payload resp port).events =
      [ConnEvent.write (httpResponse (synthesizeResponse resp
          (script (strStartsWith (utf8Lossy hostH.value) "localhost") port))),
        ConnEvent.flush] := by
  rw [hc_parsed payload resp port r hp, if_neg hpath,
    headerScan_single_host r.headers hostH false hnofu hhost]

/-- Witness for C4 amended: `Host: localhost` yields the `localhost`
fetch target. -/
theorem host_header_selects_script_host_witness :
    (handle_connection (asciiBytes "GET / HTTP/1.1\r\nHost: localhost\r\n\r\n")
        none 8000).events =
      [ConnEvent.write (httpResponse (synthesizeResponse none (script true 8000))),
        ConnEvent.flush] := by
  have h := host_header_selects_script_host none 8000
    (asciiBytes "GET / HTTP/1.1\r\nHost: localhost\r\n\r\n")
    ⟨"GET", "/", [⟨"Host", asciiBytes "localhost"⟩]⟩
    ⟨"Host", asciiBytes "localhost"⟩
    (by decide) (by decide) (by decide) (by decide)
  rw [h]
  decide

/-- Replacement lemma: a string with no occurrence of the pattern is
returned unchanged. -/
theorem replaceAux_of_not_contains (pat rep : List Char) :
    ∀ s : List Char, containsSub pat s = false → replaceAux pat rep 0 s = s := by
  intro s
  induction s with
  | nil => intro _; rfl
  | cons c rest ih =>
    intro h
    have e : containsSub pat (c :: rest) =
        (pat.isPrefixOf (c :: rest) || containsSub pat rest) := rfl
    rw [e] at h
    obtain ⟨ha, hb⟩ := Bool.or_eq_false_iff.mp h
    have e2 : replaceAux pat rep 0 (c :: rest) =
        (if !pat.isEmpty && pat.isPrefixOf (c :: rest) then
          rep ++ replaceAux pat rep (pat.length - 1) rest
         else c :: replaceAux pat rep 0 rest) := rfl
    rw [e2, if_neg (by simp [ha]), ih hb]

/-- Replacement lemma: a positive skip counter passes over exactly that
many characters. -/
theorem replaceAux_skip (pat rep : List Char) :
    ∀ l q : List Char, replaceAux pat rep l.length (l ++ q) =
      replaceAux pat rep 0 q := by
  intro l
  induction l with
  | nil => intro q; rfl
  | cons c l ih =>
    intro q
    have e : replaceAux pat rep (l.length + 1) (c :: (l ++ q)) =
        replaceAux pat rep l.length (l ++ q) := rfl
    exact e.trans (ih q)

/-- Replacement lemma: when the pattern occurs exactly at position
`p.length` and nowhere earlier, replacement rewrites that occurrence and
continues after it. -/
theorem replaceAux_single (pat rep : List Char) (hne : pat ≠ []) :
    ∀ p q : List Char,
      (∀ i, i < p.length → pat.isPrefixOf ((p ++ pat ++ q).drop i) = false) →
      replaceAux pat rep 0 (p ++ pat ++ q) =
        p ++ rep ++ replaceAux pat rep 0 q := by
  intro p
  induction p with
  | nil =>
    intro q _
    obtain ⟨c, pt, rfl⟩ : ∃ c pt, pat = c :: pt := by
      cases pat with
      | nil => exact absurd rfl hne
      | cons c pt => exact ⟨c, pt, rfl⟩
    have hpre : (c :: pt).isPrefixOf (c :: (pt ++ q)) = true := by
      have : (c :: pt) <+: ((c :: pt) ++ q) := List.prefix_append _ _
      exact (List.isPrefixOf_iff_prefix).mpr this
    show (if !(c :: pt).isEmpty && (c :: pt).isPrefixOf (c :: (pt ++ q)) then
        rep ++ replaceAux (c :: pt) rep ((c :: pt).length - 1) (pt ++ q)
       else c :: replaceAux (c :: pt) rep 0 (pt ++ q)) =
      [] ++ rep ++ replaceAux (c :: pt) rep 0 q
    rw [if_pos (by simp [hpre])]
    have hl : (c :: pt).length - 1 = pt.length := by simp
    rw [hl, replaceAux_skip]
    simp
  | cons a p ih =>
    intro q hno
    have h0 : pat.isPrefixOf (a :: (p ++ pat ++ q)) = false := by
      have := hno 0 (by simp)
      simpa using this
    show (if !pat.isEmpty && pat.isPrefixOf (a :: (p ++ pat ++ q)) then
        rep ++ replaceAux pat rep (pat.length - 1) (p ++ pat ++ q)
       else a :: replaceAux pat rep 0 (p ++ pat ++ q)) =
      (a :: p) ++ rep ++ replaceAux pat rep 0 q
    rw [if_neg (fun hcond => by rw [h0] at hcond; simp at hcond)]
    have hshift : ∀ i, i < p.length →
        pat.isPrefixOf ((p ++ pat ++ q).drop i) = false := by
      intro i hi
      have := hno (i + 1) (by simpa using Nat.succ_lt_succ hi)
      simpa using this
    rw [ih q hshift]
    rfl

/-- Containment lemma: a list of the shape `p ++ pat ++ q` contains the
(non-empty) pattern. -/
theorem containsSub_of_append (pat q : List Char) (hne : pat ≠ []) :
    ∀ p : List Char, containsSub pat (p ++ pat ++ q) = true := by
  intro p
  induction p with
  | nil =>
    obtain ⟨c, pt, rfl⟩ : ∃ c pt, pat = c :: pt := by
      cases pat with
      | nil => exact absurd rfl hne
      | cons c pt => exact ⟨c, pt, rfl⟩
    have hpre : (c :: pt).isPrefixOf (c :: (pt ++ q)) = true := by
      have : (c :: pt) <+: ((c :: pt) ++ q) := List.prefix_append _ _
      exact (List.isPrefixOf_iff_prefix).mpr this
    show ((c :: pt).isPrefixOf (c :: (pt ++ q)) ||
        containsSub (c :: pt) (pt ++ q)) = true
    rw [hpre]
    rfl
  | cons a p ih =>
    show (pat.isPrefixOf (a :: (p ++ pat ++ q)) ||
        containsSub pat (p ++ pat ++ q)) = true
    rw [ih]
    exact Bool.or_true _

/-- Claim C5 counterexample: a template containing neither `<head>` nor
`<body>` is returned unchanged — no head section and no script are
inserted, contrary to the claim's "inserted immediately before the body
tag". -/
theorem template_no_markers_cex :
    synthesizeResponse (some "Done.") (script false 7890) = "Done."
  ∧ strContains "Done." "<head>" = false
  ∧ strContains "Done." "<body>" = false
  ∧ strContains (synthesizeResponse (some "Done.") (script false 7890))
      "<script>" = false :=
  ⟨by decide, by decide, by decide, by decide⟩

/-- Claim C5 amended: with a template containing a single `<head>`
marker, the script is inserted immediately after it; with no `<head>` but
a single `<body>`, a head section containing the script is inserted
immediately before the body tag; with neither marker the template is
returned unchanged (each insertion in fact rewrites every occurrence of
its marker; with a single occurrence this is exactly the claimed
insertion); with no template, the built-in page carries the script in its
head. -/
theorem response_synthesis_amended (scr : String) :
    (∀ (p q : List Char) (s : String), s.data = p ++ "<head>".data ++ q →
      (∀ i, i < p.length →
        ("<head>".data).isPrefixOf ((p ++ "<head>".data ++ q).drop i) = false) →
      containsSub ("<head>".data) q = false →
      (synthesizeResponse (some s) scr).data =
        p ++ "<head>".data ++ scr.data ++ q)
  ∧ (∀ (p q : List Char) (s : String), s.data = p ++ "<body>".data ++ q →
      strContains s "<head>" = false →
      (∀ i, i < p.length →
        ("<body>".data).isPrefixOf ((p ++ "<body>".data ++ q).drop i) = false) →
      containsSub ("<body>".data) q = false →
      (synthesizeResponse (some s) scr).data =
        p ++ "<head>".data ++ scr.data ++ "</head>".data ++ "<body>".data ++ q)
  ∧ (∀ s : String, strContains s "<head>" = false →
      strContains s "<body>" = false → synthesizeResponse (some s) scr = s)
  ∧ synthesizeResponse none scr =
      "<html><head>" ++ scr ++
        "</head><body>Please return to the app.</body></html>" := by
  refine ⟨?_, ?_, ?_, rfl⟩
  · intro p q s hsd hno hq
    have hct : strContains s "<head>" = true := by
      show containsSub ("<head>".data) s.data = true
      rw [hsd]
      exact containsSub_of_append _ q (by decide) p
    have e : synthesizeResponse (some s) scr =
        (if strContains s "<head>" then strReplace s "<head>" ("<head>" ++ scr)
         else strReplace s "<body>" ("<head>" ++ scr ++ "</head><body>")) := rfl
    rw [e, if_pos hct]
    show replaceAux ("<head>".data) (("<head>" ++ scr).data) 0 s.data =
      p ++ "<head>".data ++ scr.data ++ q
    rw [hsd, replaceAux_single _ _ (by decide) p q hno,
      replaceAux_of_not_contains _ _ q hq, String.data_append]
    simp [List.append_assoc]
  · intro p q s hsd hnc hno hq
    have e : synthesizeResponse (some s) scr =
        (if strContains s "<head>" then strReplace s "<head>" ("<head>" ++ scr)
         else strReplace s "<body>" ("<head>" ++ scr ++ "</head><body>")) := rfl
    rw [e, if_neg (by simp [hnc])]
    show replaceAux ("<body>".data) (("<head>" ++ scr ++ "</head><body>").data)
        0 s.data = p ++ "<head>".data ++ scr.data ++ "</head>".data ++
          "<body>".data ++ q
    rw [hsd, replaceAux_single _ _ (by decide) p q hno,
      replaceAux_of_not_contains _ _ q hq, String.data_append,
      String.data_append]
    have hsplit : ("</head><body>" : String).data =
        ("</head>" : String).data ++ ("<body>" : String).data := by decide
    rw [hsplit]
    simp [List.append_assoc]
  · intro s h1 h2
    have e : synthesizeResponse (some s) scr =
        (if strContains s "<head>" then strReplace s "<head>" ("<head>" ++ scr)
         else strReplace s "<body>" ("<head>" ++ scr ++ "</head><body>")) := rfl
    rw [e, if_neg (by simp [h1])]
    show String.mk (replaceAux ("<body>".data)
        (("<head>" ++ scr ++ "</head><body>").data) 0 s.data) = s
    rw [replaceAux_of_not_contains _ _ s.data h2]

/-- Witness for C5 amended: a template with one head marker receives the
script right after `<head>`; one with only a body tag receives the
synthesized head right before `<body>`; one with neither is unchanged. -/
theorem response_synthesis_amended_witness :
    ("<html><head></head><body>Hi</body></html>" : String).data =
      ("<html>" : String).data ++ ("<head>" : String).data ++
        ("</head><body>Hi</body></html>" : String).data
  ∧ (synthesizeResponse (some "<html><head></head><body>Hi</body></html>")
        (script false 7890)).data =
      ("<html>" : String).data ++ ("<head>" : String).data ++
        (script false 7890).data ++
        ("</head><body>Hi</body></html>" : String).data
  ∧ (synthesizeResponse (some "<html><body>Hi</body></html>")
        (script false 7890)).data =
      ("<html>" : String).data ++ ("<head>" : String).data ++
        (script false 7890).data ++ ("</head>" : String).data ++
        ("<body>" : String).data ++ ("Hi</body></html>" : String).data
  ∧ synthesizeResponse (some "Hi") (script false 7890) = "Hi" :=
  ⟨by decide,
   (response_synthesis_amended (script false 7890)).1
     ("<html>" : String).data ("</head><body>Hi</body></html>" : String).data
     "<html><head></head><body>Hi</body></html>"
     (by decide) (by decide) (by decide),
   (response_synthesis_amended (script false 7890)).2.1
     ("<html>" : String).data ("Hi</body></html>" : String).data
     "<html><body>Hi</body></html>"
     (by decide) (by decide) (by decide) (by decide),
   (response_synthesis_amended (script false 7890)).2.2.1 "Hi"
     (by decide) (by decide)⟩

end Oauth
